import Mathlib

/-!
Formal model of the expense-ledger core of the microaccounting application
(src/main.py): the `Columns` schema, the `MyTableModel` table and persistence
layer (`load_csv`, `save_csv`, `create_backup`, `insertRow`, `setData`,
`get_used_categories`, `get_used_shops`), the `update_charts` aggregation pass
of `MicroAccounting`, and the `MplCanvas.pie` category rollup.

Modelling conventions:
* A pandas `DataFrame` is a `Table`: a column-name header, a list of integer
  row labels (pandas keeps the labels of rows when `sort_values` permutes
  them; `.iloc` is positional while `.loc` goes through labels), and the rows
  as lists of cell strings in header order.  Cell contents are modelled as the
  strings that appear in the CSV file; numeric cells hold their decimal text.
* Python string comparison (used by `sort_values` on the date column and by
  tuple comparison in `sorted(zip(data, labels))`) is code-point-wise
  lexicographic comparison, modelled by `strLe` below.
* Python float arithmetic in `update_charts` is exact on the decimal inputs
  considered here and is modelled by exact decimal numbers `Dec`
  (value `num / 10 ^ exp`).
* The filesystem is a map from paths (lists of components) to CSV file
  contents, plus the set of existing directories and a set of paths whose
  write raises an I/O error.  `shutil.copyfile` and `DataFrame.to_csv` write
  a file's full contents; `pd.read_csv` yields the stored header and records
  with fresh labels 0..n-1.  Raised exceptions are modelled as `Option`
  results (`none`) or an explicit error component.
* `pd.sort_values` uses an unstable sort; the model fixes insertion sort as
  one concrete representative.  None of the statements below depend on which
  sorted permutation pandas picks.
-/

/-- Lexicographic comparison of code-point lists, Python's string order. -/
def lexLe : List Nat → List Nat → Bool
  | [], _ => true
  | _ :: _, [] => false
  | a :: as, b :: bs =>
      if a < b then true
      else if a = b then lexLe as bs
      else false

/-- Python string comparison `a <= b` (code-point lexicographic). -/
def strLe (a b : String) : Bool :=
  lexLe (a.data.map Char.toNat) (b.data.map Char.toNat)

/-- Python string comparison `a < b`. -/
def strLt (a b : String) : Bool :=
  !(strLe b a)

theorem lexLe_total : ∀ as bs : List Nat, lexLe as bs = true ∨ lexLe bs as = true := by
  intro as
  induction as with
  | nil => intro bs; left; rfl
  | cons a as ih =>
    intro bs
    cases bs with
    | nil => right; rfl
    | cons b bs =>
      by_cases hab : a < b
      · left; simp [lexLe, hab]
      · by_cases hba : b < a
        · right; simp [lexLe, hba]
        · have hev : a = b := by omega
          subst hev
          rcases ih bs with h | h
          · left; simp [lexLe, h]
          · right; simp [lexLe, h]

theorem lexLe_trans : ∀ as bs cs : List Nat,
    lexLe as bs = true → lexLe bs cs = true → lexLe as cs = true := by
  intro as
  induction as with
  | nil => intro bs cs _ _; rfl
  | cons a as ih =>
    intro bs cs h1 h2
    cases bs with
    | nil => simp [lexLe] at h1
    | cons b bs =>
      cases cs with
      | nil => simp [lexLe] at h2
      | cons c cs =>
        simp only [lexLe] at h1 h2 ⊢
        by_cases hab : a < b
        · by_cases hbc : b < c
          · have hac : a < c := by omega
            simp [hac]
          · by_cases hbc' : b = c
            · subst hbc'
              simp [hab]
            · simp [hbc, hbc'] at h2
        · by_cases hab' : a = b
          · subst hab'
            simp [hab] at h1
            by_cases hbc : a < c
            · simp [hbc]
            · by_cases hbc' : a = c
              · subst hbc'
                simp [hbc] at h2 ⊢
                exact ih bs cs h1 h2
              · simp [hbc, hbc'] at h2
          · simp [hab, hab'] at h1

theorem strLe_total (a b : String) : strLe a b = true ∨ strLe b a = true :=
  lexLe_total _ _

theorem strLe_trans {a b c : String} (h1 : strLe a b = true) (h2 : strLe b c = true) :
    strLe a c = true :=
  lexLe_trans _ _ _ h1 h2

/-- The five logical columns of class `Columns`; the values are the internal
column keys written to the CSV header. -/
def Columns.Date : String := "Datum"

def Columns.Shop : String := "Geschäft"

def Columns.Category : String := "Kategorie"

def Columns.Value : String := "Wert"

def Columns.Description : String := "Ausgabe"

/-- `Columns.displayOrder` from src/main.py: the canonical column order. -/
def Columns.displayOrder : List String :=
  [Columns.Date, Columns.Category, Columns.Shop, Columns.Description, Columns.Value]

/-- An exact decimal number `num / 10 ^ exp`; models the (exact, on these
inputs) float arithmetic of the aggregation pass. -/
structure Dec where
  num : Int
  exp : Nat
deriving DecidableEq, Repr

/-- Exact addition of decimal numbers (align exponents, add numerators). -/
def Dec.add (a b : Dec) : Dec :=
  if a.exp ≤ b.exp then { num := a.num * (10 : Int) ^ (b.exp - a.exp) + b.num, exp := b.exp }
  else { num := a.num + b.num * (10 : Int) ^ (a.exp - b.exp), exp := a.exp }

/-- Rational value of a decimal number. -/
def Dec.toRat (a : Dec) : ℚ :=
  (a.num : ℚ) / 10 ^ a.exp

/-- Numeric value of a list of decimal digit characters. -/
def digitsToNat (cs : List Char) : Nat :=
  cs.foldl (fun n c => n * 10 + (c.toNat - 48)) 0

/-- All characters are decimal digits. -/
def allDigits (cs : List Char) : Bool :=
  cs.all (fun c => c.isDigit)

/-- Split a character list on a separator character (like str.split). -/
def splitOnChar (sep : Char) (cs : List Char) : List (List Char) :=
  cs.foldr
    (fun c acc =>
      if c = sep then [] :: acc
      else
        match acc with
        | g :: gs => (c :: g) :: gs
        | [] => [[c]])
    [[]]

/-- Python `float(s)` restricted to plain decimal literals: an optional sign,
then digits with at most one decimal point and at least one digit.
(`float` also accepts exponents, inf/nan, underscores and surrounding
whitespace; the ledger values considered here are plain decimals.)
`none` models the `ValueError` that `update_charts` catches per row. -/
def pyFloat? (s : String) : Option Dec :=
  let signed :=
    match s.data with
    | '-' :: rest => (true, rest)
    | '+' :: rest => (false, rest)
    | cs => (false, cs)
  let sign : Int := if signed.1 then -1 else 1
  match splitOnChar '.' signed.2 with
  | [a] =>
      if !a.isEmpty && allDigits a then some { num := sign * (digitsToNat a : Int), exp := 0 }
      else none
  | [a, b] =>
      if allDigits a && allDigits b && (!a.isEmpty || !b.isEmpty) then
        some { num := sign * ((digitsToNat a * 10 ^ b.length + digitsToNat b : Nat) : Int),
               exp := b.length }
      else none
  | _ => none

/-- Gregorian leap year, as Python's datetime uses. -/
def leapYear (y : Nat) : Bool :=
  y % 4 = 0 && (y % 100 ≠ 0 || y % 400 = 0)

/-- Number of days in a month. -/
def daysInMonth (y m : Nat) : Nat :=
  if m = 2 then (if leapYear y then 29 else 28)
  else if m = 4 || m = 6 || m = 9 || m = 11 then 30
  else 31

/-- Python `datetime.strptime(s, "%Y-%m-%d")`: a four-digit year, a one- or
two-digit month and day, dashes in between, nothing else, and the date must
be valid.  `none` models the raised `ValueError`. -/
def strpDate? (s : String) : Option (Nat × Nat × Nat) :=
  match splitOnChar '-' s.data with
  | [ys, ms, ds] =>
      if ys.length = 4 && allDigits ys &&
         (ms.length = 1 || ms.length = 2) && allDigits ms &&
         (ds.length = 1 || ds.length = 2) && allDigits ds then
        let y := digitsToNat ys
        let m := digitsToNat ms
        let d := digitsToNat ds
        if 1 ≤ m && m ≤ 12 && 1 ≤ d && d ≤ daysInMonth y m then some (y, m, d) else none
      else none
  | _ => none

/-- English month abbreviations, `strftime("%b")` in the C locale. -/
def monthNames : List String :=
  ["Jan", "Feb", "Mar", "Apr", "May", "Jun", "Jul", "Aug", "Sep", "Oct", "Nov", "Dec"]

/-- `strftime("%b %Y")` applied to a parsed date's year and month. -/
def monthLabel (y m : Nat) : String :=
  monthNames.getD (m - 1) "" ++ " " ++ toString y

/-- A filesystem path, as a list of components. -/
abbrev FPath := List String

/-- The contents of a persisted CSV file: header row plus records.
Byte-level CSV encoding is abstracted: pandas' to_csv / read_csv round-trip
a header and a list of records faithfully. -/
structure CSVFile where
  header : List String
  records : List (List String)
deriving DecidableEq, Repr

/-- An in-memory pandas DataFrame: header (column order), integer row labels
and rows (cells in header order).  Labels and rows are parallel lists. -/
structure Table where
  header : List String
  labels : List Nat
  rows : List (List String)
deriving DecidableEq, Repr

/-- The filesystem: files by path, the set of existing directories, and the
set of paths where writing raises an I/O error. -/
structure FS where
  files : List (FPath × CSVFile)
  dirs : List FPath
  unwritable : List FPath
deriving DecidableEq, Repr

/-- The raised I/O error of a failed write. -/
inductive IOErr where
  | notWritable
deriving DecidableEq, Repr

/-- The MyTableModel state: configured default file path, the DataFrame, and
the dirty flag `data_changed`. -/
structure Store where
  file_path : FPath
  _data : Table
  data_changed : Bool
deriving DecidableEq, Repr

/-- Association-list lookup of a file's contents. -/
def fsLookup (files : List (FPath × CSVFile)) (p : FPath) : Option CSVFile :=
  match files with
  | [] => none
  | (q, c) :: rest => if q = p then some c else fsLookup rest p

/-- Write or overwrite the file at a path. -/
def fsUpsert (files : List (FPath × CSVFile)) (p : FPath) (c : CSVFile) :
    List (FPath × CSVFile) :=
  match files with
  | [] => [(p, c)]
  | (q, d) :: rest => if q = p then (p, c) :: rest else (q, d) :: fsUpsert rest p c

/-- Writing a file raises an I/O error on unwritable paths, else stores the
contents. -/
def FS.writeFile (fs : FS) (p : FPath) (c : CSVFile) : FS × Option IOErr :=
  if p ∈ fs.unwritable then (fs, some IOErr.notWritable)
  else ({ fs with files := fsUpsert fs.files p c }, none)

/-- `mkdir(parents=True, exist_ok=True)`: the directory and all its ancestors
exist afterwards. -/
def ancestorsIncl (p : FPath) : List FPath :=
  (List.range p.length).map (fun n => p.take (n + 1))

/-- Create a directory with its parents. -/
def FS.mkdirParents (fs : FS) (dir : FPath) : FS :=
  { fs with dirs := fs.dirs ++ ancestorsIncl dir }

/-- The backup path `f"{file_path}_{timestamp}.bak"`: a sibling of the
original whose last component carries the timestamp suffix. -/
def backupPath (p : FPath) (ts : String) : FPath :=
  p.dropLast ++ [(p.getLast?.getD "") ++ "_" ++ ts ++ ".bak"]

/-- `MyTableModel.create_backup`: if a file exists at the path, copy its
contents to the backup path (the timestamp is the formatted current local
time, passed in as a parameter here); no-op otherwise. -/
def create_backup (fs : FS) (file_path : FPath) (ts : String) : FS × Option IOErr :=
  let backup_file_path := backupPath file_path ts
  match fsLookup fs.files file_path with
  | some c => fs.writeFile backup_file_path c
  | none => (fs, none)

/-- Index of the date column in a header, `none` when absent (pandas raises
`KeyError` on `sort_values(by=Columns.Date)` in that case). -/
def datumIdx? (header : List String) : Option Nat :=
  header.findIdx? (fun h => h = Columns.Date)

/-- Order on (label, row) pairs by the date cell at column index i, via
Python string comparison; the order `sort_values(by=Columns.Date)` sorts by. -/
def rowLe (i : Nat) (p q : Nat × List String) : Prop :=
  strLe (p.2.getD i "") (q.2.getD i "") = true

instance rowLeDecidable (i : Nat) : DecidableRel (rowLe i) := fun p q => by
  unfold rowLe
  infer_instance

instance rowLeTotal (i : Nat) : IsTotal (Nat × List String) (rowLe i) :=
  ⟨fun p q => strLe_total _ _⟩

instance rowLeTrans (i : Nat) : IsTrans (Nat × List String) (rowLe i) :=
  ⟨fun _ _ _ h1 h2 => strLe_trans h1 h2⟩

/-- `sort_values(by=Columns.Date)`: sort rows (keeping their labels) by the
date cell.  `none` models the `KeyError` when the header has no date column.
pandas' default sort is unstable; insertion sort is one concrete sorted
permutation, and no statement below depends on the choice. -/
def Table.sortByDatum (t : Table) : Option Table :=
  match datumIdx? t.header with
  | none => none
  | some i =>
      let pairs := List.insertionSort (rowLe i) (t.labels.zip t.rows)
      some { header := t.header, labels := pairs.map Prod.fst, rows := pairs.map Prod.snd }

/-- The empty DataFrame with the canonical column set,
`pd.DataFrame(columns=Columns.displayOrder)`. -/
def Table.empty : Table :=
  { header := Columns.displayOrder, labels := [], rows := [] }

/-- `MyTableModel.load_csv`: read and date-sort the file if it exists (fresh
labels 0..n-1, as read_csv assigns); otherwise create the parents of the
configured default path (`self.file_path`, not the argument) and start an
empty canonical table.  Either way the dirty flag is cleared.  `none` models
the uncaught `KeyError` when a read file lacks the date column. -/
def Store.load_csv (s : Store) (fs : FS) (p? : Option FPath) : Option (Store × FS) :=
  let file_path := p?.getD s.file_path
  match fsLookup fs.files file_path with
  | some csv =>
      match Table.sortByDatum
          { header := csv.header, labels := List.range csv.records.length,
            rows := csv.records } with
      | some t => some ({ s with _data := t, data_changed := false }, fs)
      | none => none
  | none =>
      some ({ s with _data := Table.empty, data_changed := false },
        fs.mkdirParents s.file_path.dropLast)

/-- `MyTableModel.save_csv`: back up the current on-disk file, write the
table (header and rows) to the path, and clear the dirty flag.  An I/O error
from the backup copy or the write propagates in the third component, and the
statements after the raising one (in particular clearing the dirty flag) do
not run. -/
def Store.save_csv (s : Store) (fs : FS) (p? : Option FPath) (ts : String) :
    Store × FS × Option IOErr :=
  let file_path := p?.getD s.file_path
  match create_backup fs file_path ts with
  | (fs1, some e) => (s, fs1, some e)
  | (fs1, none) =>
      match fs1.writeFile file_path { header := s._data.header, records := s._data.rows } with
      | (fs2, some e) => (s, fs2, some e)
      | (fs2, none) => ({ s with data_changed := false }, fs2, none)

/-- The new row built by `MyTableModel.insertRow`: `pd.concat` aligns the new
single-row frame with the existing columns by name, so each header column
receives the matching entry field.  (A header column outside the canonical
five would be NaN-filled by pandas; modelled as an empty cell.) -/
def rowOfEntry (header : List String) (date description shop category value : String) :
    List String :=
  header.map (fun h =>
    if h = Columns.Date then date
    else if h = Columns.Shop then shop
    else if h = Columns.Description then description
    else if h = Columns.Value then value
    else if h = Columns.Category then category
    else "")

/-- `MyTableModel.insertRow`: append the new row (`ignore_index=True` resets
labels to 0..n), re-sort the whole table by date, and set the dirty flag.
`none` models the `KeyError` when the header has no date column (in which
case the assignment and the dirty-flag update do not run). -/
def Store.insertRow (s : Store) (date description shop category value : String) :
    Option Store :=
  let rows' := s._data.rows ++ [rowOfEntry s._data.header date description shop category value]
  match Table.sortByDatum
      { header := s._data.header, labels := List.range rows'.length, rows := rows' } with
  | some t => some { s with _data := t, data_changed := true }
  | none => none

/-- Position of a row label in the label list (`.loc` row addressing). -/
def posOfLabel (labels : List Nat) (l : Nat) : Option Nat :=
  labels.findIdx? (fun x => x = l)

/-- `self._data.loc[label, colName]`: label-based cell read; `none` models
the `KeyError` for a missing label or column. -/
def Table.locGet? (t : Table) (label : Nat) (colName : String) : Option String :=
  match posOfLabel t.labels label, t.header.findIdx? (fun h => h = colName) with
  | some p, some j => some ((t.rows.getD p []).getD j "")
  | _, _ => none

/-- `self._data.loc[label, colName] = v`: label-based cell write. -/
def Table.locSet (t : Table) (label : Nat) (colName : String) (v : String) : Table :=
  match posOfLabel t.labels label, t.header.findIdx? (fun h => h = colName) with
  | some p, some j => { t with rows := t.rows.set p ((t.rows.getD p []).set j v) }
  | _, _ => t

/-- The Qt item roles `setData` distinguishes. -/
inductive Role where
  | edit
  | display
deriving DecidableEq, Repr

/-- `MyTableModel.setData`: on the edit role, read the addressed cell, return
True immediately when the value is unchanged, else write the cell, emit
dataChanged and set the dirty flag.  Result: (new state, returned Bool,
whether dataChanged was emitted); `none` models the uncaught IndexError /
KeyError for an out-of-range column or row label. -/
def Store.setData (s : Store) (row col : Nat) (value : String) (role : Role) :
    Option (Store × Bool × Bool) :=
  match role with
  | Role.edit =>
      match Columns.displayOrder[col]? with
      | none => none
      | some colName =>
          match s._data.locGet? row colName with
          | none => none
          | some old_val =>
              if old_val = value then some (s, true, false)
              else
                some ({ s with _data := s._data.locSet row colName value, data_changed := true },
                  true, true)
  | _ => some (s, false, false)

/-- The values of a named column, `none` when the column is absent
(`KeyError`). -/
def Table.column (t : Table) (name : String) : Option (List String) :=
  (t.header.findIdx? (fun h => h = name)).map (fun j => t.rows.map (fun r => r.getD j ""))

/-- `MyTableModel.get_used_categories`: `set(self._data[Columns.Category])`,
the distinct values of the category column (a Python set, modelled as a
duplicate-free list). -/
def Store.get_used_categories (s : Store) : Option (List String) :=
  (s._data.column Columns.Category).map List.dedup

/-- `MyTableModel.get_used_shops`: the distinct values of the shop column. -/
def Store.get_used_shops (s : Store) : Option (List String) :=
  (s._data.column Columns.Shop).map List.dedup

/-- A running-total mapping in first-seen key order (`defaultdict(float)`
iterated in insertion order). -/
abbrev Agg := List (String × Dec)

/-- Add an amount to a key's running total (inserting the key at the end on
first sight, as defaultdict does). -/
def aggAdd (m : Agg) (k : String) (v : Dec) : Agg :=
  match m with
  | [] => [(k, v)]
  | (k', v') :: rest => if k' = k then (k', v'.add v) :: rest else (k', v') :: aggAdd rest k v

/-- The three aggregates built by `MicroAccounting.update_charts`. -/
structure Aggregates where
  category_sums : Agg
  by_month : Agg
  by_shop : Agg
deriving DecidableEq, Repr

/-- One iteration of the `update_charts` row loop.  The row is unpacked
positionally as `_date, shop, _, _amount, category`, i.e. cells 0, 1, 3 and 4
of the row in the DataFrame's column order; then `float(_amount)` and
`strptime(_date)` run (a `ValueError` from either, or from unpacking a row
that does not have exactly five cells, is caught and skips the row), and the
three totals are updated, `by_shop` only for a non-empty shop cell. -/
def chartRow (acc : Aggregates) (r : List String) : Aggregates :=
  match r with
  | [_date, shop, _, _amount, category] =>
      match pyFloat? _amount with
      | none => acc
      | some amount =>
          match strpDate? _date with
          | none => acc
          | some (y, m, _) =>
              { category_sums := aggAdd acc.category_sums category amount
                by_month := aggAdd acc.by_month (monthLabel y m) amount
                by_shop := if shop ≠ "" then aggAdd acc.by_shop shop amount else acc.by_shop }
  | _ => acc

/-- `MicroAccounting.update_charts` aggregation pass: one positional scan
over the table's rows. -/
def update_charts (t : Table) : Aggregates :=
  t.rows.foldl chartRow { category_sums := [], by_month := [], by_shop := [] }

/-- Python tuple comparison `(d, l) <= (d', l')` on (sum, label) pairs, the
order `sorted(zip(data, labels))` sorts by: by sum first, ties by label. -/
def pyTupleLe (p q : ℚ × String) : Prop :=
  p.1 < q.1 ∨ (p.1 = q.1 ∧ strLe p.2 q.2 = true)

instance pyTupleLeDecidable : DecidableRel pyTupleLe := fun p q => by
  unfold pyTupleLe
  infer_instance

instance pyTupleLeTotal : IsTotal (ℚ × String) pyTupleLe := by
  constructor
  intro p q
  rcases lt_trichotomy p.1 q.1 with h | h | h
  · exact Or.inl (Or.inl h)
  · rcases strLe_total p.2 q.2 with hs | hs
    · exact Or.inl (Or.inr ⟨h, hs⟩)
    · exact Or.inr (Or.inr ⟨h.symm, hs⟩)
  · exact Or.inr (Or.inl h)

instance pyTupleLeTrans : IsTrans (ℚ × String) pyTupleLe := by
  constructor
  intro p q r h1 h2
  rcases h1 with h1 | ⟨h1, h1s⟩
  · rcases h2 with h2 | ⟨h2, _⟩
    · exact Or.inl (h1.trans h2)
    · exact Or.inl (h2 ▸ h1)
  · rcases h2 with h2 | ⟨h2, h2s⟩
    · exact Or.inl (h1 ▸ h2)
    · exact Or.inr ⟨h1.trans h2, strLe_trans h1s h2s⟩

/-- `MplCanvas.pie`: with more than six slices, sort (sum, label) pairs
ascending by Python tuple comparison, keep the four largest, and merge the
rest into an "Other" bucket holding their combined sum. -/
def pie (data : List ℚ) (labels : List String) : List ℚ × List String :=
  if data.length > 6 then
    let sorted_zip := List.insertionSort pyTupleLe (data.zip labels)
    let sorted_data := sorted_zip.map Prod.fst
    let sorted_labels := sorted_zip.map Prod.snd
    let other_sum := (sorted_data.take (sorted_data.length - 4)).sum
    (sorted_data.drop (sorted_data.length - 4) ++ [other_sum],
      sorted_labels.drop (sorted_labels.length - 4) ++ ["Other"])
  else (data, labels)

/-- Order on (sum, label) pairs by sum only. -/
def sumLe (p q : ℚ × String) : Prop :=
  p.1 ≤ q.1

instance sumLeDecidable : DecidableRel sumLe := fun p q => by
  unfold sumLe
  infer_instance

instance sumLeTotal : IsTotal (ℚ × String) sumLe :=
  ⟨fun p q => le_total p.1 q.1⟩

instance sumLeTrans : IsTrans (ℚ × String) sumLe :=
  ⟨fun _ _ _ h1 h2 => h1.trans h2⟩

/-- The rollup the spec describes, for comparison with `pie`: the same
collapse but with the pairs sorted STABLY by sum alone, so that ties in the
sum keep their original relative order (insertion sort on the sum-only order
is stable). -/
def pieStableSpec (data : List ℚ) (labels : List String) : List ℚ × List String :=
  if data.length > 6 then
    let sorted_zip := List.insertionSort sumLe (data.zip labels)
    let sorted_data := sorted_zip.map Prod.fst
    let sorted_labels := sorted_zip.map Prod.snd
    let other_sum := (sorted_data.take (sorted_data.length - 4)).sum
    (sorted_data.drop (sorted_data.length - 4) ++ [other_sum],
      sorted_labels.drop (sorted_labels.length - 4) ++ ["Other"])
  else (data, labels)

/-- The rows of a table are sorted ascending by the date column (Python
string order on date cells). -/
def sortedByDate (t : Table) : Prop :=
  ∃ i, datumIdx? t.header = some i ∧
    t.rows.Pairwise (fun r1 r2 => strLe (r1.getD i "") (r2.getD i "") = true)

theorem sortByDatum_spec {t t' : Table} (h : t.sortByDatum = some t') :
    ∃ i, datumIdx? t.header = some i ∧
      t'.header = t.header ∧
      t'.labels = (List.insertionSort (rowLe i) (t.labels.zip t.rows)).map Prod.fst ∧
      t'.rows = (List.insertionSort (rowLe i) (t.labels.zip t.rows)).map Prod.snd := by
  unfold Table.sortByDatum at h
  cases hd : datumIdx? t.header with
  | none => rw [hd] at h; cases h
  | some i =>
      rw [hd] at h
      simp only [Option.some.injEq] at h
      exact ⟨i, rfl, by rw [← h], by rw [← h], by rw [← h]⟩

theorem sortByDatum_isSome {t : Table} (h : (datumIdx? t.header).isSome) :
    (t.sortByDatum).isSome := by
  unfold Table.sortByDatum
  cases hd : datumIdx? t.header with
  | none => rw [hd] at h; cases h
  | some i => simp

theorem sortByDatum_rows_perm {t t' : Table} (h : t.sortByDatum = some t')
    (hlen : t.rows.length ≤ t.labels.length) : t'.rows.Perm t.rows := by
  obtain ⟨i, _, _, _, hr⟩ := sortByDatum_spec h
  rw [hr]
  have hperm := (List.perm_insertionSort (rowLe i) (t.labels.zip t.rows)).map Prod.snd
  rw [List.map_snd_zip _ _ hlen] at hperm
  exact hperm

theorem sortByDatum_rows_sorted {t t' : Table} {i : Nat} (h : t.sortByDatum = some t')
    (hi : datumIdx? t.header = some i) :
    t'.rows.Pairwise (fun r1 r2 => strLe (r1.getD i "") (r2.getD i "") = true) := by
  obtain ⟨i', hi', _, _, hr⟩ := sortByDatum_spec h
  rw [hi] at hi'
  cases hi'
  rw [hr]
  have hsorted := List.sorted_insertionSort (rowLe i) (t.labels.zip t.rows)
  exact hsorted.map Prod.snd (fun _ _ hab => hab)

theorem sortByDatum_header {t t' : Table} (h : t.sortByDatum = some t') :
    t'.header = t.header := by
  obtain ⟨i, _, hh, _, _⟩ := sortByDatum_spec h
  exact hh

theorem sortByDatum_head_strict_min {t t' : Table} {i : Nat} {r0 : List String}
    (h : t.sortByDatum = some t') (hi : datumIdx? t.header = some i)
    (hlen : t.rows.length ≤ t.labels.length) (hr0 : r0 ∈ t.rows)
    (hmin : ∀ r ∈ t.rows, r ≠ r0 → strLt (r0.getD i "") (r.getD i "") = true) :
    t'.rows.head? = some r0 := by
  have hperm := sortByDatum_rows_perm h hlen
  have hsorted := sortByDatum_rows_sorted h hi
  have hr0' : r0 ∈ t'.rows := hperm.mem_iff.2 hr0
  cases hrows : t'.rows with
  | nil => rw [hrows] at hr0'; cases hr0'
  | cons h0 rest =>
      rw [hrows] at hsorted hr0'
      by_cases h0eq : h0 = r0
      · rw [h0eq]; rfl
      · exfalso
        have hmem : h0 ∈ t.rows := hperm.mem_iff.1 (by rw [hrows]; exact List.mem_cons_self _ _)
        have hlt := hmin h0 hmem h0eq
        have hr0rest : r0 ∈ rest := by
          rcases List.mem_cons.1 hr0' with he | he
          · exact absurd he.symm h0eq
          · exact he
        have hle : strLe (h0.getD i "") (r0.getD i "") = true :=
          (List.pairwise_cons.1 hsorted).1 r0 hr0rest
        rw [strLt, hle] at hlt
        cases hlt

/-- The date cell of the row `insertRow` builds is the inserted date. -/
theorem rowOfEntry_datum {header : List String} {i : Nat} (hi : datumIdx? header = some i)
    (date description shop category value : String) :
    (rowOfEntry header date description shop category value).getD i "" = date := by
  unfold datumIdx? at hi
  rw [List.findIdx?_eq_some_iff_getElem] at hi
  obtain ⟨hlt, hp, _⟩ := hi
  have hD : header[i] = Columns.Date := by simpa using hp
  have hlt' : i < (rowOfEntry header date description shop category value).length := by
    simpa [rowOfEntry] using hlt
  rw [List.getD_eq_getElem _ _ hlt']
  simp [rowOfEntry, hD]

theorem fsLookup_upsert_self (files : List (FPath × CSVFile)) (p : FPath) (c : CSVFile) :
    fsLookup (fsUpsert files p c) p = some c := by
  induction files with
  | nil => simp [fsUpsert, fsLookup]
  | cons hd rest ih =>
      obtain ⟨a, b⟩ := hd
      by_cases hq : a = p
      · simp [fsUpsert, fsLookup, hq]
      · simp [fsUpsert, fsLookup, hq, ih]

theorem fsLookup_upsert_ne (files : List (FPath × CSVFile)) {p q : FPath} (c : CSVFile)
    (h : q ≠ p) : fsLookup (fsUpsert files p c) q = fsLookup files q := by
  have hpq : ¬ p = q := fun hh => h hh.symm
  induction files with
  | nil => simp [fsUpsert, fsLookup, hpq]
  | cons hd rest ih =>
      obtain ⟨a, b⟩ := hd
      by_cases hq : a = p
      · subst hq
        simp [fsUpsert, fsLookup, hpq]
      · by_cases ha : a = q
        · simp [fsUpsert, fsLookup, hq, ha, hpq, h]
        · simp [fsUpsert, fsLookup, hq, ha, ih]

/-- Fields of a successful `create_backup`: directories and write permissions
are untouched, and the files are either unchanged (source missing) or
extended by the backup copy. -/
theorem create_backup_fields {fs fs' : FS} {p : FPath} {ts : String}
    (h : create_backup fs p ts = (fs', none)) :
    fs'.unwritable = fs.unwritable ∧ fs'.dirs = fs.dirs ∧
    ((fsLookup fs.files p = none ∧ fs' = fs) ∨
      (∃ c, fsLookup fs.files p = some c ∧
        fs'.files = fsUpsert fs.files (backupPath p ts) c)) := by
  unfold create_backup FS.writeFile at h
  cases hl : fsLookup fs.files p with
  | none =>
      simp only [hl] at h
      simp only [Prod.mk.injEq] at h
      rw [← h.1]
      exact ⟨rfl, rfl, Or.inl ⟨rfl, rfl⟩⟩
  | some c =>
      simp only [hl] at h
      by_cases hw : backupPath p ts ∈ fs.unwritable
      · rw [if_pos hw] at h
        simp at h
      · rw [if_neg hw] at h
        simp only [Prod.mk.injEq] at h
        rw [← h.1]
        exact ⟨rfl, rfl, Or.inr ⟨c, rfl, rfl⟩⟩

/-- Inversion of a successful `save_csv`: the dirty flag is cleared, the
backup step succeeded, and the file now holds the table's header and rows. -/
theorem save_csv_ok {s : Store} {fs : FS} {p? : Option FPath} {ts : String}
    {s1 : Store} {fs1 : FS} (h : s.save_csv fs p? ts = (s1, fs1, none)) :
    s1 = { s with data_changed := false } ∧
    ∃ fsb : FS, create_backup fs (p?.getD s.file_path) ts = (fsb, none) ∧
      fs1 = { fsb with files := (fsUpsert fsb.files (p?.getD s.file_path)
          { header := s._data.header, records := s._data.rows }) } := by
  simp only [Store.save_csv, FS.writeFile] at h
  split at h
  · simp at h
  · split at h
    · simp at h
    · rename_i fsb hcb x2 fs2 hif
      simp only [Prod.mk.injEq] at h
      obtain ⟨h1, h2, _⟩ := h
      refine ⟨h1.symm, fsb, hcb, ?_⟩
      by_cases hw : (p?.getD s.file_path) ∈ fsb.unwritable
      · rw [if_pos hw] at hif
        simp at hif
      · rw [if_neg hw] at hif
        simp only [Prod.mk.injEq] at hif
        rw [← h2, ← hif.1]

/-- The backup path is never the file's own path (its last component is
strictly longer). -/
theorem backupPath_ne (p : FPath) (ts : String) : backupPath p ts ≠ p := by
  intro h
  cases p with
  | nil => simp [backupPath] at h
  | cons a as =>
      have hlast := congrArg List.getLast? h
      rw [backupPath, List.getLast?_concat] at hlast
      obtain ⟨l, hl⟩ := Option.isSome_iff_exists.1
        (List.getLast?_isSome.2 (List.cons_ne_nil a as))
      rw [hl] at hlast
      simp only [hl, Option.getD_some, Option.some.injEq] at hlast
      have hlen := congrArg String.length hlast
      simp only [String.length_append] at hlen
      have e1 : "_".length = 1 := rfl
      have e2 : ".bak".length = 4 := rfl
      rw [e1, e2] at hlen
      omega

/-- The spec's three-entry ledger, stored in the canonical column order
`Columns.displayOrder` = [Date, Category, Shop, Description, Value]:
entries (2024-01-05, shop A, category food, description x, 10.00),
(2024-01-20, A, food, y, 5.00), (2024-02-01, B, transport, z, 3.00). -/
def c1Ledger : Table :=
  { header := Columns.displayOrder
    labels := [0, 1, 2]
    rows := [["2024-01-05", "food", "A", "x", "10.00"],
             ["2024-01-20", "food", "A", "y", "5.00"],
             ["2024-02-01", "B", "transport", "z", "3.00"]] }

/-- C1: the claim says one aggregation pass over this ledger produces
category sums (food 15.00, transport 3.00), shop sums (A 15.00, B 3.00) and
month sums (Jan 2024 15.00, Feb 2024 3.00).  The code does not: update_charts
unpacks each row positionally as (_date, shop, _, _amount, category), which
matches the column order [Date, Shop, Description, Value, Category] of the
frame insertRow builds, not the canonical order, so on canonically ordered
rows float() is applied to the Description cell ("x", "y", "z"), every row
raises the per-row ValueError, and all three aggregates come out empty. -/
theorem c1_canonical_order_aggregates_empty :
    update_charts c1Ledger = { category_sums := [], by_month := [], by_shop := [] } := by
  decide

/-- The same three entries in the column order [Date, Shop, Description,
Value, Category] that update_charts's positional unpacking expects. -/
def c1InsertOrderLedger : Table :=
  { header := [Columns.Date, Columns.Shop, Columns.Description, Columns.Value, Columns.Category]
    labels := [0, 1, 2]
    rows := [["2024-01-05", "A", "x", "10.00", "food"],
             ["2024-01-20", "A", "y", "5.00", "food"],
             ["2024-02-01", "B", "z", "3.00", "transport"]] }

/-- On the column order update_charts's unpacking assumes, the pass does
produce exactly the sums the spec claims (15.00 = Dec 1500/10^2 etc.),
confirming that the claimed sums are the code's evident intent. -/
theorem c1InsertOrderLedger_matches_claimed_sums :
    update_charts c1InsertOrderLedger =
      { category_sums := [("food", ⟨1500, 2⟩), ("transport", ⟨300, 2⟩)]
        by_month := [("Jan 2024", ⟨1500, 2⟩), ("Feb 2024", ⟨300, 2⟩)]
        by_shop := [("A", ⟨1500, 2⟩), ("B", ⟨300, 2⟩)] } := by
  decide

/-- A canonically ordered ledger with one row whose Value cell "oops" does
not parse as a number but whose Description cell "7" does. -/
def c2Ledger : Table :=
  { header := Columns.displayOrder
    labels := [0]
    rows := [["2024-01-05", "food", "A", "7", "oops"]] }

/-- C2: the claim says a row whose amount does not parse as a number is
excluded from all three aggregates.  The code instead applies float() to the
Description cell (position 3 of the canonical order), so this row — whose
Value cell "oops" is unparseable — is NOT excluded: it is aggregated with
amount 7 under category key "oops" (the Value cell) and shop key "food"
(the Category cell). -/
theorem c2_unparseable_amount_not_excluded :
    update_charts c2Ledger =
      { category_sums := [("oops", ⟨7, 0⟩)]
        by_month := [("Jan 2024", ⟨7, 0⟩)]
        by_shop := [("food", ⟨7, 0⟩)] } := by
  decide

/-- A canonically ordered ledger whose single row has an unparseable date
(and a numeric Description cell, so that only the date can fail). -/
def badDateLedger : Table :=
  { header := Columns.displayOrder
    labels := [0]
    rows := [["not-a-date", "food", "A", "7", "9.00"]] }

/-- A row with an unparseable date is skipped from all three aggregates
(the ValueError from strptime is caught per row); this half of C2's policy
does hold on the code. -/
theorem badDateLedger_row_skipped :
    update_charts badDateLedger = { category_sums := [], by_month := [], by_shop := [] } := by
  decide

/-- C3: for every ledger state and entry, after a successful insertRow the
rows are sorted by date ascending (insertRow re-sorts the whole collection),
the dirty flag is set, and if the inserted date is strictly earlier than
every existing row's date, the new row is placed first. -/
theorem c3_insertRow_sorted_dirty_first (s : Store)
    (date description shop category value : String) (s' : Store)
    (h : s.insertRow date description shop category value = some s') :
    sortedByDate s'._data ∧ s'.data_changed = true ∧
    (∀ i, datumIdx? s._data.header = some i →
      (∀ r ∈ s._data.rows, strLt date (r.getD i "") = true) →
      s'._data.rows.head? =
        some (rowOfEntry s._data.header date description shop category value)) := by
  simp only [Store.insertRow] at h
  split at h
  · rename_i t hsort
    simp only [Option.some.injEq] at h
    subst h
    obtain ⟨i, hi, hh, _, _⟩ := sortByDatum_spec hsort
    have hlen : (s._data.rows ++
        [rowOfEntry s._data.header date description shop category value]).length ≤
        (List.range (s._data.rows ++
          [rowOfEntry s._data.header date description shop category value]).length).length := by
      simp
    refine ⟨⟨i, ?_, ?_⟩, rfl, ?_⟩
    · rw [hh]; exact hi
    · exact sortByDatum_rows_sorted hsort hi
    · intro j hj hmin
      refine sortByDatum_head_strict_min hsort hj hlen ?_ ?_
      · exact List.mem_append_right _ (List.mem_singleton.2 rfl)
      · intro r hr hne
        rcases List.mem_append.1 hr with hr' | hr'
        · rw [rowOfEntry_datum hj]
          exact hmin r hr'
        · exact absurd (List.mem_singleton.1 hr') hne
  · simp at h

/-- A one-row ledger used to instantiate C3. -/
def c3Store : Store :=
  { file_path := ["tmp", "b.csv"]
    _data := { header := Columns.displayOrder
               labels := [0]
               rows := [["2024-05-01", "k", "s", "w", "9.00"]] }
    data_changed := false }

/-- The state insertRow produces from `c3Store` for an earlier-dated entry:
the new row first, labels permuted with the rows, dirty flag set. -/
def c3StoreAfter : Store :=
  { file_path := ["tmp", "b.csv"]
    _data := { header := Columns.displayOrder
               labels := [1, 0]
               rows := [["2024-01-03", "K", "S", "w", "5.00"],
                        ["2024-05-01", "k", "s", "w", "9.00"]] }
    data_changed := true }

/-- Witness for C3 at a concrete ledger: inserting an entry dated earlier
than the single existing row succeeds, and the conclusion holds for it. -/
theorem c3_witness :
    Store.insertRow c3Store "2024-01-03" "w" "S" "K" "5.00" = some c3StoreAfter ∧
    (sortedByDate c3StoreAfter._data ∧ c3StoreAfter.data_changed = true ∧
      (∀ i, datumIdx? c3Store._data.header = some i →
        (∀ r ∈ c3Store._data.rows, strLt "2024-01-03" (r.getD i "") = true) →
        c3StoreAfter._data.rows.head? =
          some (rowOfEntry c3Store._data.header "2024-01-03" "w" "S" "K" "5.00"))) :=
  ⟨by decide,
    c3_insertRow_sorted_dirty_first c3Store "2024-01-03" "w" "S" "K" "5.00" c3StoreAfter
      (by decide)⟩

/-- C4: saving to a path and then loading from that same path succeeds and
yields a table whose rows are a permutation (the same multiset) of the saved
ledger's rows, ordered by the date-ascending sort normalization that load
applies. -/
theorem c4_save_then_load_roundtrip (s : Store) (fs : FS) (p : FPath) (ts : String)
    (s1 : Store) (fs1 : FS) (hdat : (datumIdx? s._data.header).isSome)
    (hsave : s.save_csv fs (some p) ts = (s1, fs1, none)) :
    ∃ s2 : Store, s1.load_csv fs1 (some p) = some (s2, fs1) ∧
      s2._data.rows.Perm s._data.rows ∧ sortedByDate s2._data := by
  obtain ⟨hs1, fsb, hcb, hfs1⟩ := save_csv_ok hsave
  have hlook : fsLookup fs1.files p =
      some { header := s._data.header, records := s._data.rows } := by
    simp only [hfs1]
    exact fsLookup_upsert_self _ _ _
  have hsomeT : (Table.sortByDatum
      { header := s._data.header
        labels := List.range s._data.rows.length
        rows := s._data.rows }).isSome :=
    sortByDatum_isSome hdat
  obtain ⟨t2, hsort⟩ := Option.isSome_iff_exists.1 hsomeT
  refine ⟨{ s1 with _data := t2, data_changed := false }, ?_, ?_, ?_⟩
  · simp only [Store.load_csv, Option.getD_some, hlook, hsort]
  · show t2.rows.Perm s._data.rows
    exact @sortByDatum_rows_perm
      ⟨s._data.header, List.range s._data.rows.length, s._data.rows⟩ t2 hsort (by simp)
  · show sortedByDate t2
    obtain ⟨i, hi⟩ := Option.isSome_iff_exists.1 hdat
    refine ⟨i, ?_, ?_⟩
    · rw [sortByDatum_header hsort]
      exact hi
    · exact sortByDatum_rows_sorted hsort hi

/-- An unsorted dirty two-row ledger used to instantiate C4. -/
def c4Store : Store :=
  { file_path := ["data", "Buchhaltung.csv"]
    _data := { header := Columns.displayOrder
               labels := [0, 1]
               rows := [["2024-03-01", "c", "s", "w", "2.00"],
                        ["2024-01-01", "c", "s", "w", "1.00"]] }
    data_changed := true }

/-- The empty filesystem. -/
def c4FS : FS := { files := [], dirs := [], unwritable := [] }

/-- `c4Store` after a successful save: only the dirty flag changes. -/
def c4StoreSaved : Store :=
  { file_path := ["data", "Buchhaltung.csv"]
    _data := c4Store._data
    data_changed := false }

/-- The filesystem after saving `c4Store` to data/Buchhaltung.csv (no
pre-existing file, so no backup is created). -/
def c4FSSaved : FS :=
  { files := [(["data", "Buchhaltung.csv"],
      { header := Columns.displayOrder
        records := [["2024-03-01", "c", "s", "w", "2.00"],
                    ["2024-01-01", "c", "s", "w", "1.00"]] })]
    dirs := []
    unwritable := [] }

/-- Witness for C4 at a concrete ledger and path: the save succeeds and the
reloaded table has the same multiset of rows, date-sorted. -/
theorem c4_witness :
    Store.save_csv c4Store c4FS (some ["data", "Buchhaltung.csv"]) "20250101_120000" =
      (c4StoreSaved, c4FSSaved, none) ∧
    (∃ s2 : Store,
      Store.load_csv c4StoreSaved c4FSSaved (some ["data", "Buchhaltung.csv"]) =
        some (s2, c4FSSaved) ∧
      s2._data.rows.Perm c4Store._data.rows ∧ sortedByDate s2._data) :=
  ⟨by decide,
    c4_save_then_load_roundtrip c4Store c4FS ["data", "Buchhaltung.csv"] "20250101_120000"
      c4StoreSaved c4FSSaved (by decide) (by decide)⟩

/-- C5: a save that fails with an I/O error leaves the ledger object (and in
particular its dirty flag) untouched, the error propagates in the result,
and the dirty flag is cleared only by a successful save; an unwritable
target path always produces such a failure. -/
theorem c5_save_error_keeps_dirty (s : Store) (fs : FS) (p? : Option FPath) (ts : String) :
    (∀ s1 fs1 e, s.save_csv fs p? ts = (s1, fs1, some e) →
      s1 = s ∧ s1.data_changed = s.data_changed) ∧
    (∀ s1 fs1, s.save_csv fs p? ts = (s1, fs1, none) → s1.data_changed = false) ∧
    ((p?.getD s.file_path) ∈ fs.unwritable →
      ∀ s1 fs1 err, s.save_csv fs p? ts = (s1, fs1, err) →
        err = some IOErr.notWritable ∧ s1.data_changed = s.data_changed) := by
  refine ⟨?_, ?_, ?_⟩
  · intro s1 fs1 e h
    simp only [Store.save_csv, FS.writeFile] at h
    split at h
    · simp only [Prod.mk.injEq] at h
      rw [← h.1]
      exact ⟨rfl, rfl⟩
    · split at h
      · simp only [Prod.mk.injEq] at h
        rw [← h.1]
        exact ⟨rfl, rfl⟩
      · simp at h
  · intro s1 fs1 h
    rw [(save_csv_ok h).1]
  · intro hw s1 fs1 err h
    simp only [Store.save_csv, FS.writeFile] at h
    split at h
    · rename_i fsb e hcb
      cases e
      simp only [Prod.mk.injEq] at h
      exact ⟨h.2.2.symm, by rw [← h.1]⟩
    · split at h
      · rename_i fsb hcb x2 fs2 e hif
        cases e
        simp only [Prod.mk.injEq] at h
        exact ⟨h.2.2.symm, by rw [← h.1]⟩
      · rename_i fsb hcb x2 fs2 hif
        obtain ⟨hunw, _, _⟩ := create_backup_fields hcb
        rw [if_pos (by rw [hunw]; exact hw)] at hif
        simp at hif

/-- A dirty ledger whose target path is not writable. -/
def c5Store : Store :=
  { file_path := ["p", "l.csv"], _data := Table.empty, data_changed := true }

/-- A filesystem on which writing p/l.csv raises an I/O error. -/
def c5FS : FS := { files := [], dirs := [], unwritable := [["p", "l.csv"]] }

/-- Witness for C5: saving the dirty `c5Store` to the unwritable path fails
with the propagated error and leaves the store - dirty flag included -
unchanged. -/
theorem c5_witness :
    c5Store.data_changed = true ∧
    Store.save_csv c5Store c5FS (some ["p", "l.csv"]) "20250101_000000" =
      (c5Store, c5FS, some IOErr.notWritable) ∧
    (some IOErr.notWritable = some IOErr.notWritable ∧
      c5Store.data_changed = c5Store.data_changed) :=
  ⟨by decide, by decide,
    (c5_save_error_keeps_dirty c5Store c5FS (some ["p", "l.csv"]) "20250101_000000").2.2
      (by decide) c5Store c5FS (some IOErr.notWritable) (by decide)⟩

/-- C6: create_backup is a no-op when no file exists at the path; when a file
exists (and the fresh backup path is writable) it succeeds and creates
exactly one copy, with the source file's exact contents, at
backupPath = {path}_{timestamp}.bak, touching no other file; consequently a
successful save leaves the backup copy plus the newly written target and
changes no other file (in particular it deletes no old backup), and leaves
every file other than the target unchanged when the target did not
pre-exist (zero new backups). -/
theorem c6_backup_policy (fs : FS) (path : FPath) (ts : String) (s : Store) :
    (fsLookup fs.files path = none → create_backup fs path ts = (fs, none)) ∧
    (∀ c, fsLookup fs.files path = some c → backupPath path ts ∉ fs.unwritable →
      create_backup fs path ts =
        ({ fs with files := fsUpsert fs.files (backupPath path ts) c }, none) ∧
      fsLookup (fsUpsert fs.files (backupPath path ts) c) (backupPath path ts) = some c ∧
      (∀ q, q ≠ backupPath path ts →
        fsLookup (fsUpsert fs.files (backupPath path ts) c) q = fsLookup fs.files q)) ∧
    (∀ c s1 fs1, fsLookup fs.files path = some c →
      s.save_csv fs (some path) ts = (s1, fs1, none) →
      fsLookup fs1.files (backupPath path ts) = some c ∧
      (∀ q, q ≠ backupPath path ts → q ≠ path →
        fsLookup fs1.files q = fsLookup fs.files q)) ∧
    (∀ s1 fs1, fsLookup fs.files path = none →
      s.save_csv fs (some path) ts = (s1, fs1, none) →
      ∀ q, q ≠ path → fsLookup fs1.files q = fsLookup fs.files q) := by
  refine ⟨?_, ?_, ?_, ?_⟩
  · intro h
    simp [create_backup, h]
  · intro c hc hbw
    refine ⟨?_, fsLookup_upsert_self _ _ _, fun q hq => fsLookup_upsert_ne _ _ hq⟩
    simp [create_backup, FS.writeFile, hc, hbw]
  · intro c s1 fs1 hc hsave
    obtain ⟨hs1, fsb, hcb, hfs1⟩ := save_csv_ok hsave
    simp only [Option.getD_some] at hcb hfs1
    obtain ⟨hunw, hdirs, hor⟩ := create_backup_fields hcb
    rcases hor with ⟨hnone, _⟩ | ⟨c', hc', hfiles⟩
    · rw [hc] at hnone
      cases hnone
    · rw [hc] at hc'
      injection hc' with hcc
      subst hcc
      constructor
      · simp only [hfs1]
        rw [fsLookup_upsert_ne _ _ (backupPath_ne path ts), hfiles]
        exact fsLookup_upsert_self _ _ _
      · intro q hqb hqp
        simp only [hfs1]
        rw [fsLookup_upsert_ne _ _ hqp, hfiles]
        exact fsLookup_upsert_ne _ _ hqb
  · intro s1 fs1 hmiss hsave q hq
    obtain ⟨hs1, fsb, hcb, hfs1⟩ := save_csv_ok hsave
    simp only [Option.getD_some] at hcb hfs1
    obtain ⟨hunw, hdirs, hor⟩ := create_backup_fields hcb
    rcases hor with ⟨_, hfseq⟩ | ⟨c', hc', _⟩
    · simp only [hfs1]
      rw [fsLookup_upsert_ne _ _ hq, hfseq]
    · rw [hmiss] at hc'
      cases hc'

/-- The contents of the pre-existing data file used to instantiate C6. -/
def c6CSV : CSVFile :=
  { header := Columns.displayOrder
    records := [["2024-01-01", "k", "s", "w", "1.00"]] }

/-- A filesystem with one data file at d/a.csv. -/
def c6FS : FS :=
  { files := [(["d", "a.csv"], c6CSV)], dirs := [], unwritable := [] }

/-- An arbitrary store for instantiating C6's save clauses. -/
def c6Store : Store :=
  { file_path := ["d", "a.csv"], _data := Table.empty, data_changed := true }

/-- Witness for C6: backing up a missing path is a no-op, and backing up the
existing d/a.csv writes its exact contents to the timestamped backup path. -/
theorem c6_witness :
    create_backup c6FS ["d", "b.csv"] "20250102_030405" = (c6FS, none) ∧
    fsLookup (fsUpsert c6FS.files (backupPath ["d", "a.csv"] "20250102_030405") c6CSV)
      (backupPath ["d", "a.csv"] "20250102_030405") = some c6CSV :=
  ⟨(c6_backup_policy c6FS ["d", "b.csv"] "20250102_030405" c6Store).1 (by decide),
    ((c6_backup_policy c6FS ["d", "a.csv"] "20250102_030405" c6Store).2.1 c6CSV
      (by decide) (by decide)).2.1⟩

/-- Counterexample to C7's tie-breaking clause: the two 5-valued categories
appear in the original order "b" then "a".  A stable sort on the sums alone
(what the claim describes) would keep "a" in the top four and merge "b" into
Other; the code sorts (sum, label) tuples, breaking the tie by label, so it
keeps "b" and merges "a".  The claim's tie-break description is false of the
code. -/
theorem c7_counterexample_tiebreak :
    (pie [9, 9, 9, 5, 5, 1, 1] ["w", "x", "y", "b", "a", "u", "v"]).2 =
      ["b", "w", "x", "y", "Other"] ∧
    (pieStableSpec [9, 9, 9, 5, 5, 1, 1] ["w", "x", "y", "b", "a", "u", "v"]).2 =
      ["a", "w", "x", "y", "Other"] ∧
    (pie [9, 9, 9, 5, 5, 1, 1] ["w", "x", "y", "b", "a", "u", "v"]).2 ≠
      (pieStableSpec [9, 9, 9, 5, 5, 1, 1] ["w", "x", "y", "b", "a", "u", "v"]).2 := by
  decide

/-- C7 (amended): with more than six categories the rollup yields exactly
five buckets: the four pairs that are largest in the (sum, label) tuple
order - so ties in the sum are broken by the label, not by original
position - keep their identity, every remaining pair is at most every kept
pair in that order, the Other bucket is exactly the sum of the merged pairs,
and the total of all buckets equals the total of the input sums. -/
theorem c7_pie_rollup (data : List ℚ) (labels : List String)
    (hlen : labels.length = data.length) (h6 : data.length > 6) :
    ∃ rest kept : List (ℚ × String),
      (data.zip labels).Perm (rest ++ kept) ∧
      kept.length = 4 ∧
      List.Sorted pyTupleLe (rest ++ kept) ∧
      (∀ p ∈ rest, ∀ q ∈ kept, pyTupleLe p q) ∧
      pie data labels =
        (kept.map Prod.fst ++ [(rest.map Prod.fst).sum], kept.map Prod.snd ++ ["Other"]) ∧
      (kept.map Prod.fst).sum + (rest.map Prod.fst).sum = data.sum := by
  have hlz : (data.zip labels).length = data.length := by
    rw [List.length_zip, hlen]
    exact Nat.min_self _
  have hlzs : (List.insertionSort pyTupleLe (data.zip labels)).length = data.length := by
    rw [List.length_insertionSort, hlz]
  have hsplit : List.insertionSort pyTupleLe (data.zip labels) =
      (List.insertionSort pyTupleLe (data.zip labels)).take
          ((List.insertionSort pyTupleLe (data.zip labels)).length - 4) ++
        (List.insertionSort pyTupleLe (data.zip labels)).drop
          ((List.insertionSort pyTupleLe (data.zip labels)).length - 4) :=
    (List.take_append_drop _ _).symm
  have hsorted := List.sorted_insertionSort pyTupleLe (data.zip labels)
  refine ⟨(List.insertionSort pyTupleLe (data.zip labels)).take
      ((List.insertionSort pyTupleLe (data.zip labels)).length - 4),
    (List.insertionSort pyTupleLe (data.zip labels)).drop
      ((List.insertionSort pyTupleLe (data.zip labels)).length - 4),
    ?_, ?_, ?_, ?_, ?_, ?_⟩
  · rw [List.take_append_drop]
    exact (List.perm_insertionSort _ _).symm
  · rw [List.length_drop]
    omega
  · rw [List.take_append_drop]
    exact hsorted
  · have h2 := hsorted
    rw [hsplit] at h2
    exact (List.pairwise_append.1 h2).2.2
  · unfold pie
    rw [if_pos h6]
    simp only [List.map_take, List.map_drop, List.length_map]
  · have hsum : ((List.insertionSort pyTupleLe (data.zip labels)).map Prod.fst).sum
        = data.sum := by
      have hperm := (List.perm_insertionSort pyTupleLe (data.zip labels)).map Prod.fst
      rw [hperm.sum_eq, List.map_fst_zip _ _ (le_of_eq hlen.symm)]
    rw [← hsum]
    conv_rhs => rw [hsplit, List.map_append, List.sum_append]
    rw [add_comm]

/-- Witness for C7 at the spec's own instance: seven categories with sums
1..7 roll up to the four largest buckets 4, 5, 6, 7 plus Other = 1+2+3 = 6. -/
theorem c7_witness :
    (["c1", "c2", "c3", "c4", "c5", "c6", "c7"] : List String).length =
      ([1, 2, 3, 4, 5, 6, 7] : List ℚ).length ∧
    ([1, 2, 3, 4, 5, 6, 7] : List ℚ).length > 6 ∧
    pie [1, 2, 3, 4, 5, 6, 7] ["c1", "c2", "c3", "c4", "c5", "c6", "c7"] =
      ([4, 5, 6, 7, 6], ["c4", "c5", "c6", "c7", "Other"]) ∧
    (∃ rest kept : List (ℚ × String),
      (([1, 2, 3, 4, 5, 6, 7] : List ℚ).zip
        ["c1", "c2", "c3", "c4", "c5", "c6", "c7"]).Perm (rest ++ kept) ∧
      kept.length = 4 ∧
      List.Sorted pyTupleLe (rest ++ kept) ∧
      (∀ p ∈ rest, ∀ q ∈ kept, pyTupleLe p q) ∧
      pie [1, 2, 3, 4, 5, 6, 7] ["c1", "c2", "c3", "c4", "c5", "c6", "c7"] =
        (kept.map Prod.fst ++ [(rest.map Prod.fst).sum], kept.map Prod.snd ++ ["Other"]) ∧
      (kept.map Prod.fst).sum + (rest.map Prod.fst).sum =
        ([1, 2, 3, 4, 5, 6, 7] : List ℚ).sum) :=
  ⟨by decide, by decide,
    (by
      have h1 : pie [1, 2, 3, 4, 5, 6, 7] ["c1", "c2", "c3", "c4", "c5", "c6", "c7"] =
          ([4, 5, 6, 7, ([1, 2, 3] : List ℚ).sum], ["c4", "c5", "c6", "c7", "Other"]) := rfl
      have h2 : ([1, 2, 3] : List ℚ).sum = 6 := by norm_num
      rw [h2] at h1
      exact h1),
    c7_pie_rollup [1, 2, 3, 4, 5, 6, 7] ["c1", "c2", "c3", "c4", "c5", "c6", "c7"]
      (by decide) (by decide)⟩

/-- C8: for every ledger state and in-range cell (a valid column index and an
addressable row label), setData on the edit role with a value equal to the
cell's current value returns True but leaves the store - table contents and
dirty flag - unchanged and emits no dataChanged notification. -/
theorem c8_setData_same_value_noop (s : Store) (row col : Nat) (v cn : String)
    (hcol : Columns.displayOrder[col]? = some cn)
    (hval : s._data.locGet? row cn = some v) :
    s.setData row col v Role.edit = some (s, true, false) := by
  simp [Store.setData, hcol, hval]

/-- A one-row ledger used to instantiate C8. -/
def c8Store : Store :=
  { file_path := ["tmp", "b.csv"]
    _data := { header := Columns.displayOrder
               labels := [0]
               rows := [["2024-05-01", "k", "s", "w", "9.00"]] }
    data_changed := false }

/-- Witness for C8: rewriting the value cell of the only row with its current
value "9.00" is accepted but changes nothing and emits nothing. -/
theorem c8_witness :
    Columns.displayOrder[4]? = some Columns.Value ∧
    c8Store._data.locGet? 0 Columns.Value = some "9.00" ∧
    Store.setData c8Store 0 4 "9.00" Role.edit = some (c8Store, true, false) :=
  ⟨by decide, by decide,
    c8_setData_same_value_noop c8Store 0 4 "9.00" Columns.Value (by decide) (by decide)⟩

/-- A ledger whose single row has an empty category and an empty shop cell. -/
def c9Store : Store :=
  { file_path := ["tmp", "b.csv"]
    _data := { header := Columns.displayOrder
               labels := [0]
               rows := [["2024-05-01", "", "", "w", "9.00"]] }
    data_changed := false }

/-- Counterexample to C9: on a ledger with an empty category and shop cell,
get_used_categories and get_used_shops both contain the empty string - the
code takes the set of ALL column values and never filters out "", while the
claim says "" is never an element. -/
theorem c9_counterexample_empty_string_included :
    Store.get_used_categories c9Store = some [""] ∧
    Store.get_used_shops c9Store = some [""] := by
  decide

/-- C9 (amended): get_used_categories and get_used_shops return exactly the
distinct values present in the category and shop columns - including the
empty string when a cell is empty: each result is duplicate-free and has the
same membership as the respective column. -/
theorem c9_used_values_distinct (s : Store) (cats shops : List String)
    (hc : s.get_used_categories = some cats) (hs : s.get_used_shops = some shops) :
    cats.Nodup ∧ shops.Nodup ∧
    (∃ col, s._data.column Columns.Category = some col ∧ ∀ x, (x ∈ cats ↔ x ∈ col)) ∧
    (∃ col, s._data.column Columns.Shop = some col ∧ ∀ x, (x ∈ shops ↔ x ∈ col)) := by
  unfold Store.get_used_categories at hc
  unfold Store.get_used_shops at hs
  rcases Option.map_eq_some'.1 hc with ⟨colc, hcolc, hdc⟩
  rcases Option.map_eq_some'.1 hs with ⟨cols, hcols, hds⟩
  refine ⟨?_, ?_, ⟨colc, hcolc, ?_⟩, ⟨cols, hcols, ?_⟩⟩
  · rw [← hdc]; exact List.nodup_dedup _
  · rw [← hds]; exact List.nodup_dedup _
  · intro x; rw [← hdc]; exact List.mem_dedup
  · intro x; rw [← hds]; exact List.mem_dedup

/-- Witness for C9's amended statement at the `c9Store` ledger. -/
theorem c9_witness :
    Store.get_used_categories c9Store = some [""] ∧
    Store.get_used_shops c9Store = some [""] ∧
    (([""] : List String).Nodup ∧ ([""] : List String).Nodup ∧
      (∃ col, c9Store._data.column Columns.Category = some col ∧
        ∀ x, (x ∈ ([""] : List String) ↔ x ∈ col)) ∧
      (∃ col, c9Store._data.column Columns.Shop = some col ∧
        ∀ x, (x ∈ ([""] : List String) ↔ x ∈ col))) :=
  ⟨by decide, by decide,
    c9_used_values_distinct c9Store [""] [""] (by decide) (by decide)⟩

/-- C10: loading a path that does not refer to an existing file initializes
an empty table with the canonical column set, clears the dirty flag, creates
the parent directories of the store's configured DEFAULT file path (even
when load was called with a different explicit path), and creates no file -
in particular not the missing data file. -/
theorem c10_load_missing_creates_default_parents (s : Store) (fs : FS) (p : FPath)
    (hmiss : fsLookup fs.files p = none) :
    ∃ s' fs', s.load_csv fs (some p) = some (s', fs') ∧
      fs'.files = fs.files ∧
      (∀ d ∈ ancestorsIncl s.file_path.dropLast, d ∈ fs'.dirs) ∧
      fs'.unwritable = fs.unwritable ∧
      s'._data = Table.empty ∧ s'.data_changed = false ∧ s'.file_path = s.file_path := by
  refine ⟨{ s with _data := Table.empty, data_changed := false },
    fs.mkdirParents s.file_path.dropLast, ?_, rfl, ?_, rfl, rfl, rfl, rfl⟩
  · simp [Store.load_csv, hmiss, FS.mkdirParents]
  · intro d hd
    simp only [FS.mkdirParents, List.mem_append]
    exact Or.inr hd

/-- A store whose default path is home/u/data/b.csv, with an empty
filesystem. -/
def c10Store : Store :=
  { file_path := ["home", "u", "data", "b.csv"], _data := Table.empty, data_changed := true }

/-- The empty filesystem used to instantiate C10. -/
def c10FS : FS := { files := [], dirs := [], unwritable := [] }

/-- Witness for C10: loading the distinct missing path elsewhere/x.csv still
creates the parents of the DEFAULT path home/u/data/b.csv, creates no file,
and resets the table and dirty flag. -/
theorem c10_witness :
    fsLookup c10FS.files ["elsewhere", "x.csv"] = none ∧
    (∃ s' fs', Store.load_csv c10Store c10FS (some ["elsewhere", "x.csv"]) = some (s', fs') ∧
      fs'.files = c10FS.files ∧
      (∀ d ∈ ancestorsIncl c10Store.file_path.dropLast, d ∈ fs'.dirs) ∧
      fs'.unwritable = c10FS.unwritable ∧
      s'._data = Table.empty ∧ s'.data_changed = false ∧ s'.file_path = c10Store.file_path) :=
  ⟨by decide,
    c10_load_missing_creates_default_parents c10Store c10FS ["elsewhere", "x.csv"] (by decide)⟩
